import Mathlib

/-!
# Verification of the center-console dashboard against its specification

This file shallowly embeds the parts of the `center-console` Streamlit
dashboard (a Python repository) that its natural-language specification makes
claims about, and proves or refutes those claims.

Conventions of the embedding:
* Python strings are modelled as `String` / `List Char`.
* Python machine floats are modelled by exact real numbers `ℝ` where a claim
  is about the mathematical content of a computation (the radar-chart
  geometry), and by exact rationals `ℚ` where a computation must stay
  executable (the DOT-rewriting colour helpers).  IEEE rounding is not
  modelled.
* Python dictionaries deserialized from JSON are modelled as association
  lists.
* Functions that issue HTTP requests are modelled by passing in the outcome
  of the request (`Except` for raised exceptions) and returning, alongside
  the Python return value, the list of UI messages shown and/or the requests
  issued, so that error-handling and frame claims become statements about
  pure functions.
-/

namespace CenterConsole

/-! ## Python primitive helpers -/

/-- The ASCII whitespace characters recognised by Python's `str.strip()`
(the unicode cases do not occur in the data handled by this repository). -/
def isSpaceCh (c : Char) : Bool :=
  c = ' ' ∨ c = '\t' ∨ c = '\n' ∨ c = '\r' ∨ c = Char.ofNat 11 ∨ c = Char.ofNat 12

/-- Python `str.strip()` on a list of characters. -/
def pyStrip (s : List Char) : List Char :=
  ((s.dropWhile isSpaceCh).reverse.dropWhile isSpaceCh).reverse

/-- Decimal digit test, as `str.isdigit` restricted to ASCII. -/
def isDigitCh (c : Char) : Bool :=
  '0' ≤ c ∧ c ≤ '9'

/-- Value of a list of decimal digits. -/
def digitsVal (ds : List Char) : ℕ :=
  ds.foldl (fun a c => a * 10 + (c.toNat - '0'.toNat)) 0

/-- Digit run possibly containing single underscores between digits, as
accepted by Python's `int()` literal syntax: nonempty, starts and ends with
a digit, never two underscores in a row. -/
def validIntDigits : List Char → Bool
  | [] => false
  | [c] => isDigitCh c
  | c :: c' :: tl =>
    isDigitCh c && (if c' = '_' then
        match tl with
        | [] => false
        | t :: tl' => isDigitCh t && validIntDigits (t :: tl')
      else validIntDigits (c' :: tl))

/-- Python `int(s)`: strip whitespace, optional sign, digits (with optional
underscore separators).  Returns `none` where Python raises `ValueError`. -/
def pyIntOfChars (s : List Char) : Option ℤ :=
  let t := pyStrip s
  match t with
  | '+' :: tl => if validIntDigits tl then some (digitsVal (tl.filter isDigitCh)) else none
  | '-' :: tl => if validIntDigits tl then some (-(digitsVal (tl.filter isDigitCh) : ℤ)) else none
  | _ => if validIntDigits t then some (digitsVal (t.filter isDigitCh)) else none

/-- Python `int(s)` on a `String`. -/
def pyIntOfString (s : String) : Option ℤ :=
  pyIntOfChars s.data

/-- Python truthiness of an optional string (`os.getenv` result):
`None` and the empty string are falsy. -/
def falsyOptStr : Option String → Bool
  | none => true
  | some s => s = ""

/-! ## `src/config.py` — the `Config` class (claim C5)

`Config.__init__` reads the environment, converts
`CENTER_CONSOLE_API_TIMEOUT` with `int()` (which raises `ValueError` on a
malformed value *before* validation runs), then `_validate_config` raises
`ValueError` naming the missing required variables. -/

/-- A raised Python `ValueError`, carrying its message. -/
inductive PyErr where
  | valueError (msg : String)
deriving DecidableEq, Repr

/-- The attribute state of a successfully constructed `Config`. -/
structure ConfigData where
  rear_diff_host : Option String
  rear_diff_port : Option String
  rear_diff_pref : String
  api_timeout : ℤ
  mlflow_host : Option String
  mlflow_port : Option String
  mlflow_username : Option String
  mlflow_password : Option String
deriving DecidableEq, Repr

/-- The list of missing required variables computed by
`Config._validate_config`. -/
def configMissing (env : String → Option String) : List String :=
  (if falsyOptStr (env "REAR_DIFF_HOST") then ["REAR_DIFF_HOST"] else []) ++
    (if falsyOptStr (env "REAR_DIFF_PORT_EXTERNAL") then ["REAR_DIFF_PORT_EXTERNAL"] else [])

/-- `Config.__init__` over an environment `env` (`os.getenv`).  Mirrors
`src/config.py` lines 9-33: attribute reads in source order, the `int()`
conversion of the timeout, then `_validate_config`. -/
def mkConfig (env : String → Option String) : Except PyErr ConfigData :=
  let host := env "REAR_DIFF_HOST"
  let port := env "REAR_DIFF_PORT_EXTERNAL"
  let pref := (env "REAR_DIFF_PREFIX").getD "rear-diff"
  match pyIntOfString ((env "CENTER_CONSOLE_API_TIMEOUT").getD "30") with
  | none =>
      .error (.valueError ("invalid literal for int() with base 10: " ++
        ((env "CENTER_CONSOLE_API_TIMEOUT").getD "30")))
  | some t =>
      let missing := configMissing env
      if missing ≠ [] then
        .error (.valueError ("Missing required environment variables: " ++
          String.intercalate ", " missing))
      else
        .ok { rear_diff_host := host
              rear_diff_port := port
              rear_diff_pref := pref
              api_timeout := t
              mlflow_host := env "CENTER_CONSOLE_MLFLOW_HOST"
              mlflow_port := env "CENTER_CONSOLE_MLFLOW_PORT"
              mlflow_username := env "CENTER_CONSOLE_MLFLOW_USERNAME"
              mlflow_password := env "CENTER_CONSOLE_MLFLOW_PASSWORD" }

/-- The `Config.base_url` property. -/
def baseUrl (c : ConfigData) : String :=
  "http://" ++ c.rear_diff_host.getD "" ++ ":" ++ c.rear_diff_port.getD "" ++
    "/" ++ c.rear_diff_pref ++ "/"

/-- Concrete environment with both required variables present but a
non-numeric `CENTER_CONSOLE_API_TIMEOUT` (used against claim C5). -/
def envTimeoutGarbage : String → Option String := fun k =>
  if k = "REAR_DIFF_HOST" then some "h"
  else if k = "REAR_DIFF_PORT_EXTERNAL" then some "1"
  else if k = "CENTER_CONSOLE_API_TIMEOUT" then some "abc"
  else none

/-- Concrete well-formed environment (used as the C5 witness input). -/
def envOk : String → Option String := fun k =>
  if k = "REAR_DIFF_HOST" then some "myhost"
  else if k = "REAR_DIFF_PORT_EXTERNAL" then some "8080"
  else none

/-! ## `src/pages/algo.py` — `condense_category_set` (claim C4)

`condense_category_set` receives a regex match `feature:{values}rest`,
parses the comma-separated `values` as Python ints (any failure returns the
match unchanged), sorts them, folds maximal runs of consecutive values into
`a-b` ranges and rejoins with commas. -/

/-- The `{` character (written numerically; it is text, not syntax). -/
def lbrace : Char := Char.ofNat 123

/-- The `}` character. -/
def rbrace : Char := Char.ofNat 125

/-- Python `str.split(sep)` (single-character separator, keeping empty
pieces, always at least one piece). -/
def pySplitAux (sep : Char) : List Char → List Char → List (List Char)
  | [], cur => [cur.reverse]
  | c :: tl, cur =>
    if c = sep then cur.reverse :: pySplitAux sep tl [] else pySplitAux sep tl (c :: cur)

/-- Python `s.split(sep)`. -/
def pySplitOn (sep : Char) (s : List Char) : List (List Char) :=
  pySplitAux sep s []

/-- Evaluation of the generator `(int(v.strip()) for v in values_str.split(','))`
inside `sorted(...)`: the first `ValueError` aborts the whole conversion.
(`pyIntOfChars` already models the stripping done by `int()` itself, which
subsumes the redundant `.strip()` in the source.) -/
def parseAll (f : α → Option β) : List α → Option (List β)
  | [] => some []
  | x :: tl =>
    match f x, parseAll f tl with
    | some y, some ys => some (y :: ys)
    | _, _ => none

/-- Python `sorted` on a list of ints (any stable comparison sort computes
the same list, since equal ints are indistinguishable). -/
def sortInt (l : List ℤ) : List ℤ :=
  List.insertionSort (fun a b : ℤ => a ≤ b) l

/-- The loop of `condense_category_set` building closed ranges: the state is
the remaining values, `range_start`, `range_end` and the closed ranges so
far (the source closes each range directly as a string; the string rendering
is factored into `renderRanges` below). -/
def buildRangesAux : List ℤ → ℤ → ℤ → List (ℤ × ℤ) → List (ℤ × ℤ)
  | [], rs, re, acc => acc ++ [(rs, re)]
  | v :: tl, rs, re, acc =>
    if v = re + 1 then buildRangesAux tl rs v acc
    else buildRangesAux tl v v (acc ++ [(rs, re)])

/-- Ranges built from a (sorted) value list, as in the source's loop over
`values[1:]` seeded with `values[0]`. -/
def buildRanges : List ℤ → List (ℤ × ℤ)
  | [] => []
  | v :: tl => buildRangesAux tl v v []

/-- `str(range_start)` for a singleton, `f"{range_start}-{range_end}"`
otherwise. -/
def renderPair (p : ℤ × ℤ) : String :=
  if p.1 = p.2 then toString p.1 else toString p.1 ++ "-" ++ toString p.2

/-- `','.join(ranges)`. -/
def renderRanges (rs : List (ℤ × ℤ)) : String :=
  String.intercalate "," (rs.map renderPair)

/-- `condense_category_set` on the three captured groups of the regex
`(\w+):\{([\d,\s]+)\}([^"]*)`; `feature:{values}rest` is returned unchanged
when parsing fails (or, dead in practice, when the value list is empty). -/
def condenseCategorySet (feature valuesStr rest : String) : String :=
  match parseAll pyIntOfChars (pySplitOn ',' valuesStr.data) with
  | none => feature ++ ":\x7b" ++ valuesStr ++ "\x7d" ++ rest
  | some vals =>
    let values := sortInt vals
    if values = [] then feature ++ ":\x7b" ++ valuesStr ++ "\x7d" ++ rest
    else feature ++ ":\x7b" ++ renderRanges (buildRanges values) ++ "\x7d" ++ rest

/-- The set of integers denoted by the produced range `a-b` (or by the
singleton `a` when `a = b`). -/
def expandPair (p : ℤ × ℤ) : List ℤ :=
  (List.range (p.2 + 1 - p.1).toNat).map (fun i : ℕ => p.1 + (i : ℤ))

/-- The set of integers denoted by a list of produced ranges. -/
def expandRanges (rs : List (ℤ × ℤ)) : List ℤ :=
  rs.flatMap expandPair

/-- `p` is a maximal run of consecutive integers inside the values `S`. -/
def IsMaxRun (S : List ℤ) (p : ℤ × ℤ) : Prop :=
  p.1 ≤ p.2 ∧ (∀ n : ℤ, p.1 ≤ n → n ≤ p.2 → n ∈ S) ∧ p.1 - 1 ∉ S ∧ p.2 + 1 ∉ S

/-! ## Radar-chart geometry (claim C1)

`get_geometric_midpoint_radius` from `src/pages/training.py` (an identical
copy lives in `src/pages/prediction.py`).  Machine floats are modelled by
exact reals; `math.radians`, `math.cos`, `math.sin` by the corresponding
real functions. -/

/-- `math.radians`: degrees to radians. -/
noncomputable def degToRad (x : ℝ) : ℝ :=
  x * (Real.pi / 180)

/-- x-coordinate of the Cartesian image of the polar point `(r, θ°)`. -/
noncomputable def polarX (r θ : ℝ) : ℝ :=
  r * Real.cos (degToRad θ)

/-- y-coordinate of the Cartesian image of the polar point `(r, θ°)`. -/
noncomputable def polarY (r θ : ℝ) : ℝ :=
  r * Real.sin (degToRad θ)

/-- The determinant `denom = dx_ray * dy_line - dy_ray * dx_line`. -/
noncomputable def gmDenom (r1 θ1 r2 θ2 θmid : ℝ) : ℝ :=
  Real.cos (degToRad θmid) * (polarY r2 θ2 - polarY r1 θ1) -
    Real.sin (degToRad θmid) * (polarX r2 θ2 - polarX r1 θ1)

/-- The parameter `t = (x1 * dy_line - y1 * dx_line) / denom`. -/
noncomputable def gmT (r1 θ1 r2 θ2 θmid : ℝ) : ℝ :=
  (polarX r1 θ1 * (polarY r2 θ2 - polarY r1 θ1) -
    polarY r1 θ1 * (polarX r2 θ2 - polarX r1 θ1)) / gmDenom r1 θ1 r2 θ2 θmid

/-- `get_geometric_midpoint_radius(r1, theta1, r2, theta2, theta_mid)`. -/
noncomputable def getGeometricMidpointRadius (r1 θ1 r2 θ2 θmid : ℝ) : ℝ :=
  if |gmDenom r1 θ1 r2 θ2 θmid| < 1e-10 then (r1 + r2) / 2
  else max 0 (gmT r1 θ1 r2 θ2 θmid)

/-! ## HTTP request modelling (claims C2, C3, C6, C9, C10)

A request is recorded with its method, URL and JSON payload; functions that
issue requests return the list of requests they issued and/or the list of
inline UI messages they showed, alongside their Python return value. -/

/-- JSON payload values occurring in this dashboard's PATCH bodies. -/
inductive PVal where
  | s (v : String)
  | b (v : Bool)
deriving DecidableEq, Repr

/-- HTTP methods used via the `requests` library in this repository. -/
inductive HMethod where
  | get
  | patch
  | post
deriving DecidableEq, Repr

/-- A recorded HTTP request. -/
structure HttpReq where
  method : HMethod
  url : String
  payload : List (String × PVal)
deriving DecidableEq, Repr

/-- A `requests.*` call site: file, enclosing function, method.  One entry
per `requests.get/patch/post` occurrence under `src/` (no other HTTP
mechanism is used in the repository). -/
structure ReqSite where
  file : String
  fn : String
  method : HMethod
deriving DecidableEq, Repr

/-- All 40 `requests.*` call sites of the repository, by file and enclosing
function, with the HTTP method used. -/
def requestSites : List ReqSite :=
  [⟨"src/app.py", "fetch_training_data", .get⟩,
   ⟨"src/app.py", "update_label", .patch⟩,
   ⟨"src/app.py", "mark_as_reviewed", .patch⟩,
   ⟨"src/pages/algo.py", "fetch_latest_run", .post⟩,
   ⟨"src/pages/algo.py", "fetch_artifact", .get⟩,
   ⟨"src/pages/get_flyway_migrations.py", "fetch_flyway_data", .get⟩,
   ⟨"src/pages/get_media.py", "fetch_media_data", .get⟩,
   ⟨"src/pages/media-pipeline.py", "search_media_by_hash", .get⟩,
   ⟨"src/pages/media-pipeline.py", "search_media_by_title", .get⟩,
   ⟨"src/pages/media-pipeline.py", "update_pipeline_status", .patch⟩,
   ⟨"src/pages/media.py", "make_patch_call", .patch⟩,
   ⟨"src/pages/media.py", "make_soft_delete_call", .patch⟩,
   ⟨"src/pages/media.py", "make_promote_call", .patch⟩,
   ⟨"src/pages/media.py", "make_finish_call", .patch⟩,
   ⟨"src/pages/media.py", "fetch_media_data_multi_status_loop", .get⟩,
   ⟨"src/pages/media.py", "fetch_media_data_single_status", .get⟩,
   ⟨"src/pages/media.py", "fetch_error_count", .get⟩,
   ⟨"src/pages/media_pipeline.py", "make_patch_call", .patch⟩,
   ⟨"src/pages/media_pipeline.py", "search_media", .get⟩,
   ⟨"src/pages/page2.py", "fetch_media_data", .get⟩,
   ⟨"src/pages/prediction.py", "fetch_prediction_data", .get⟩,
   ⟨"src/pages/prediction.py", "fetch_media_data_for_predictions", .get⟩,
   ⟨"src/pages/prediction.py", "update_label", .patch⟩,
   ⟨"src/pages/prediction.py", "toggle_anomalous", .patch⟩,
   ⟨"src/pages/prediction.py", "rerun_metadata", .patch⟩,
   ⟨"src/pages/prediction_anomalies.py", "fetch_prediction_data_filtered", .get⟩,
   ⟨"src/pages/prediction_anomalies.py", "fetch_prediction_data_unfiltered", .get⟩,
   ⟨"src/pages/prediction_anomalies.py", "fetch_training_data_for_predictions", .get⟩,
   ⟨"src/pages/prediction_anomalies.py", "update_label", .patch⟩,
   ⟨"src/pages/prediction_anomalies.py", "mark_as_reviewed", .patch⟩,
   ⟨"src/pages/training.py", "fetch_training_data", .get⟩,
   ⟨"src/pages/training.py", "fetch_unreviewed_count", .get⟩,
   ⟨"src/pages/training.py", "update_label", .patch⟩,
   ⟨"src/pages/training.py", "toggle_anomalous", .patch⟩,
   ⟨"src/pages/training.py", "would_not_watch_training", .patch⟩,
   ⟨"src/pages/training.py", "would_watch_training", .patch⟩,
   ⟨"src/pages/training_anomalies.py", "fetch_anomalies_data", .get⟩,
   ⟨"src/pages/training_search.py", "search_movies", .get⟩,
   ⟨"src/pages/training_search.py", "update_label", .patch⟩,
   ⟨"src/pages/training_search.py", "toggle_anomalous", .patch⟩]

/-! ### Claim C3: the two `Config` methods that do not exist

`class Config` defines endpoint-builder methods; attribute lookup of a name
it does not define raises `AttributeError`. -/

/-- Attribute lookup of the single-argument endpoint methods actually
defined by `class Config` (src/config.py); every other name yields
`AttributeError` (`none`). -/
def configGetAttrEndpoint (cfg : ConfigData) (name : String) : Option (String → String) :=
  if name = "get_training_update_endpoint" then
    some (fun i => baseUrl cfg ++ "training/" ++ i)
  else if name = "get_media_pipeline_endpoint" then
    some (fun h => baseUrl cfg ++ "media/" ++ h ++ "/pipeline")
  else if name = "get_training_would_not_watch_endpoint" then
    some (fun i => baseUrl cfg ++ "training/" ++ i ++ "/would_not_watch")
  else if name = "get_training_would_watch_endpoint" then
    some (fun i => baseUrl cfg ++ "training/" ++ i ++ "/would_watch")
  else none

/-- `update_label` from `src/app.py` lines 60-79: inside the `try`, the
payload is built and `_config.get_label_update_endpoint(imdb_id)` is looked
up — an `AttributeError`, caught by `except Exception`, which shows
`st.error` and returns `False`; the `requests.patch` call is never reached.
Result: (requests issued, UI messages, return value). -/
def updateLabelApp (cfg : ConfigData) (imdbId newLabel : String) :
    List HttpReq × List String × Bool :=
  match configGetAttrEndpoint cfg "get_label_update_endpoint" with
  | some f =>
      ([{ method := .patch, url := f imdbId,
          payload := [("imdb_id", .s imdbId), ("label", .s newLabel),
                      ("human_labeled", .b true), ("reviewed", .b true)] }],
        [], true)
  | none =>
      ([], ["Failed to update label for " ++ imdbId ++ ": " ++
        "'Config' object has no attribute 'get_label_update_endpoint'"], false)

/-- `rerun_metadata` from `src/pages/prediction.py` lines 481-498: the
lookup `_config.get_training_rerun_metadata_endpoint(imdb_id)` raises
`AttributeError` inside the `try` (caught, `st.error`, return `False`)
before `requests.patch` can run. -/
def rerunMetadataPred (cfg : ConfigData) (imdbId : String) :
    List HttpReq × List String × Bool :=
  match configGetAttrEndpoint cfg "get_training_rerun_metadata_endpoint" with
  | some f =>
      ([{ method := .patch, url := f imdbId, payload := [] }], [], true)
  | none =>
      ([], ["Failed to rerun metadata for " ++ imdbId ++ ": " ++
        "'Config' object has no attribute 'get_training_rerun_metadata_endpoint'"],
        false)

/-! ### Claim C2: per-call error handling skeletons

Each function is modelled on the outcome of its single HTTP call
(`Except.error e` = the call raised, with exception text `e`); the model
returns (inline UI messages shown, Python return value).  Each function
performs exactly one call attempt per invocation by construction. -/

/-- `fetch_training_data` (src/app.py 36-58): on exception, `st.error` with
the exception text and return `None`. -/
def fetchTrainingDataApp (outcome : Except String α) : List String × Option α :=
  match outcome with
  | .ok j => ([], some j)
  | .error e => (["Failed to fetch training data: " ++ e], none)

/-- `fetch_unreviewed_count` (src/pages/training.py 466-483): on exception,
show nothing and return `0`; on success, `len(data.get("data", []))`. -/
def fetchUnreviewedCount (outcome : Except String (List α)) : List String × ℕ :=
  match outcome with
  | .ok items => ([], items.length)
  | .error _ => ([], 0)

/-- `fetch_error_count` (src/pages/media.py 254-270): same silent shape. -/
def fetchErrorCount (outcome : Except String (List α)) : List String × ℕ :=
  match outcome with
  | .ok items => ([], items.length)
  | .error _ => ([], 0)

/-- `make_patch_call` (src/pages/media.py 97-123): outcome is
(status code, parsed json, raw text); on exception only the logger fires
and `(False, str(e))` is returned for the caller to display. -/
def makePatchCallMedia (outcome : Except String (ℕ × α × String)) :
    List String × (Bool × (α ⊕ String)) :=
  match outcome with
  | .ok (status, j, text) =>
      if status = 200 then ([], (true, .inl j)) else ([], (false, .inr text))
  | .error e => ([], (false, .inr e))

/-- The claim's property for one function: the exception text is surfaced
to the user as an inline UI message (at least one message is shown). -/
def surfacesErrorInline (f : Except String γ → List String × β) : Prop :=
  ∀ e : String, (f (.error e)).1 ≠ []

/-! ### Claim C9: the pipeline-update submit action -/

/-- The `updates` dict built by the submit handler (src/pages/media.py
542-548 and src/pages/media_pipeline.py 182-188): exactly the fields whose
selected value differs from the current one, in source order. -/
def buildPipelineUpdates (curP newP : String) (curE newE : Bool) (curR newR : String) :
    List (String × PVal) :=
  (if newP ≠ curP then [("pipeline_status", PVal.s newP)] else []) ++
    (if newE ≠ curE then [("error_status", PVal.b newE)] else []) ++
      (if newR ≠ curR then [("rejection_status", PVal.s newR)] else [])

/-- The submit action of `display_focused_item` in `src/pages/media.py`
(lines 541-563): when `updates` is nonempty, PATCH the payload
`{"hash": hash, **updates}` (assembled in `make_patch_call`); otherwise
issue no request and show "No changes detected".  Result: (payload sent if
any, info messages). -/
def mediaSubmitAction (hash curP newP : String) (curE newE : Bool) (curR newR : String) :
    Option (List (String × PVal)) × List String :=
  let updates := buildPipelineUpdates curP newP curE newE curR newR
  if updates ≠ [] then (some (("hash", PVal.s hash) :: updates), [])
  else (none, ["No changes detected"])

/-- The identically-structured submit action of `display_focused_item` in
`src/pages/media_pipeline.py` (lines 176-216). -/
def mediaPipelineSubmitAction (hash curP newP : String) (curE newE : Bool)
    (curR newR : String) : Option (List (String × PVal)) × List String :=
  let updates := buildPipelineUpdates curP newP curE newE curR newR
  if updates ≠ [] then (some (("hash", PVal.s hash) :: updates), [])
  else (none, ["No changes detected"])

/-! ### Claim C10: `fetch_media_data` with several pipeline statuses
(src/pages/media.py lines 198-251, multi-status branch) -/

/-- `item.get("hash")` (absent key = Python `None`). -/
def mhash (it : List (String × String)) : Option String :=
  it.lookup "hash"

/-- `item.get("updated_at", "")`. -/
def mupdatedAt (it : List (String × String)) : String :=
  (it.lookup "updated_at").getD ""

/-- The accumulation loop: keep an item only when its hash has not been
seen, first occurrence wins; `seen` persists across statuses. -/
def dedupeByHashAux : List (List (String × String)) → List (Option String) →
    List (List (String × String))
  | [], _ => []
  | it :: tl, seen =>
    if mhash it ∈ seen then dedupeByHashAux tl seen
    else it :: dedupeByHashAux tl (mhash it :: seen)

/-- `all_items.sort(key=lambda x: x.get("updated_at", ""), reverse=True)`:
stable descending sort by the `updated_at` string. -/
def sortByUpdatedDesc (l : List (List (String × String))) :
    List (List (String × String)) :=
  List.insertionSort (fun a b => mupdatedAt b ≤ mupdatedAt a) l

/-- A recorded GET request with its query parameters. -/
structure GetReq where
  url : String
  params : List (String × String)
deriving DecidableEq, Repr

/-- The GET requests issued by the multi-status branch: one per status, in
order, each with the base parameters plus that `pipeline_status`. -/
def mediaMultiRequests (cfg : ConfigData) (limit offset : ℕ) (statuses : List String) :
    List GetReq :=
  statuses.map (fun s =>
    { url := baseUrl cfg ++ "media/",
      params := [("limit", toString limit), ("offset", toString offset),
                 ("sort_by", "updated_at"), ("sort_order", "desc"),
                 ("pipeline_status", s)] })

/-- The multi-status branch of `fetch_media_data` on successful responses
(`responses s` = the `data` list returned for `pipeline_status = s`):
the requests issued and the merged, deduplicated, sorted, truncated data. -/
def fetchMediaDataMulti (cfg : ConfigData)
    (responses : String → List (List (String × String)))
    (statuses : List String) (limit offset : ℕ) :
    List GetReq × List (List (String × String)) :=
  (mediaMultiRequests cfg limit offset statuses,
    (sortByUpdatedDesc (dedupeByHashAux (statuses.flatMap responses) [])).take limit)

/-! ## `src/pages/algo.py` — `style_dot` (claim C7)

The DOT-rewriting routine and its helpers (`condense_category_sets`,
`value_to_color`, `color_leaves`, the edge styling and `flip_edges`).  The
`re.sub` calls are hand-compiled to deterministic left-to-right scanners:
for each of the source's patterns the greedy character-class runs admit no
real backtracking, so a scan that at each position either takes the unique
match or advances one character reproduces `re.sub` exactly.  Scanners
carry a fuel argument (initialised to the input length, which the scan
never exhausts since every match consumes at least one character).
Python floats are modelled by exact rationals. -/

/-- `\w` (ASCII range; the DOT feature names are ASCII). -/
def isWordCh (c : Char) : Bool :=
  ('a' ≤ c && c ≤ 'z') || ('A' ≤ c && c ≤ 'Z') || isDigitCh c || c = '_'

/-- Match a literal character sequence, returning the remainder. -/
def expectSeq : List Char → List Char → Option (List Char)
  | [], l => some l
  | _ :: _, [] => none
  | p :: ps, c :: cs => if c = p then expectSeq ps cs else none

/-- Does the list start with the given sequence? -/
def startsWithSeq : List Char → List Char → Bool
  | [], _ => true
  | _ :: _, [] => false
  | p :: ps, c :: cs => c = p && startsWithSeq ps cs

/-- Python's `pat in s` substring test. -/
def containsSeq (pat : List Char) : List Char → Bool
  | [] => startsWithSeq pat []
  | c :: cs => startsWithSeq pat (c :: cs) || containsSeq pat cs

/-- Python `str.replace(old, new)` (all non-overlapping occurrences, left
to right); fuelled recursion. -/
def replaceAllSeqAux (old new : List Char) : ℕ → List Char → List Char
  | 0, l => l
  | _ + 1, [] => []
  | fuel + 1, c :: cs =>
    match expectSeq old (c :: cs) with
    | some rest => new ++ replaceAllSeqAux old new fuel rest
    | none => c :: replaceAllSeqAux old new fuel cs

/-- Python `str.replace(old, new)`. -/
def replaceAllSeq (old new l : List Char) : List Char :=
  replaceAllSeqAux old new l.length l

/-- Python `str.replace(old, new, 1)` (first occurrence only). -/
def replaceFirstSeqAux (old new : List Char) : ℕ → List Char → List Char
  | 0, l => l
  | _ + 1, [] => []
  | fuel + 1, c :: cs =>
    match expectSeq old (c :: cs) with
    | some rest => new ++ rest
    | none => c :: replaceFirstSeqAux old new fuel cs

/-- Python `str.replace(old, new, 1)`. -/
def replaceFirstSeq (old new l : List Char) : List Char :=
  replaceFirstSeqAux old new l.length l

/-- The shape of every `re.sub(pattern, repl, s)` here: scan left to right;
at each position take the match (replacement, remainder) if the pattern
matches, else emit the character and advance. -/
def regexSubAux (tryM : List Char → Option (List Char × List Char)) :
    ℕ → List Char → List Char
  | 0, l => l
  | _ + 1, [] => []
  | fuel + 1, c :: cs =>
    match tryM (c :: cs) with
    | some (rep, rest) => rep ++ regexSubAux tryM fuel rest
    | none => c :: regexSubAux tryM fuel cs

/-- Matcher for `graph \[.*?\]` (lazy `.` excludes newlines; replaced by
the empty string). -/
def tryGraphDirective (l : List Char) : Option (List Char × List Char) :=
  match expectSeq ("graph [".data) l with
  | none => none
  | some r1 =>
    let (_, r2) := r1.span (fun c => c != ']' && c != '\n')
    match r2 with
    | ']' :: r3 => some ([], r3)
    | _ => none

/-- `re.sub(r'graph \[.*?\]', '', dot_string)`. -/
def removeGraphDirectives (l : List Char) : List Char :=
  regexSubAux tryGraphDirective l.length l

/-- Matcher for `color="[^"]*"` with a fixed replacement. -/
def tryColorAttr (repl : List Char) (l : List Char) : Option (List Char × List Char) :=
  match expectSeq ("color=\"".data) l with
  | none => none
  | some r1 =>
    let (_, r2) := r1.span (fun c => c != '"')
    match r2 with
    | '"' :: r3 => some (repl, r3)
    | _ => none

/-- `re.sub(r'color="[^"]*"', repl, edge_def)`. -/
def colorSub (repl : List Char) (l : List Char) : List Char :=
  regexSubAux (tryColorAttr repl) l.length l

/-- `style_edge`: replace `missing` by `null`, then recolour depending on
whether the label starts with `yes` or `no`. -/
def styleEdgeRepl (edge : List Char) : List Char :=
  let e1 := replaceAllSeq ("missing".data) ("null".data) edge
  if containsSeq ("label=\"yes".data) e1 then
    colorSub ("color=\"#AAAAAA\" style=\"solid\"".data) e1
  else if containsSeq ("label=\"no".data) e1 then
    colorSub ("color=\"#AAAAAA\" style=\"dashed\"".data) e1
  else e1

/-- Matcher for edge definitions `\d+ -> \d+ \[[^\]]+\]`, replaced through
`style_edge`. -/
def tryEdgeDef (l : List Char) : Option (List Char × List Char) :=
  let (d1, r1) := l.span isDigitCh
  if d1 = [] then none
  else
    match expectSeq (" -> ".data) r1 with
    | none => none
    | some r2 =>
      let (d2, r3) := r2.span isDigitCh
      if d2 = [] then none
      else
        match expectSeq (" [".data) r3 with
        | none => none
        | some r4 =>
          let (body, r5) := r4.span (fun c => c != ']')
          if body = [] then none
          else
            match r5 with
            | ']' :: r6 =>
              some (styleEdgeRepl (d1 ++ " -> ".data ++ d2 ++ " [".data ++
                body ++ [']']), r6)
            | _ => none

/-- `re.sub(r'\d+ -> \d+ \[[^\]]+\]', style_edge, styled)`. -/
def styleEdges (l : List Char) : List Char :=
  regexSubAux tryEdgeDef l.length l

/-- `'\n'.join(...)`. -/
def pyJoinWith (sep : Char) : List (List Char) → List Char
  | [] => []
  | [x] => x
  | x :: y :: tl => x ++ sep :: pyJoinWith sep (y :: tl)

/-- The line loop of `flip_edges`: swap a `label="yes"` line followed by a
`label="no` line, advancing past the pair; otherwise advance one line. -/
def flipEdgeLines : List (List Char) → List (List Char)
  | a :: b :: tl =>
    if containsSeq ("label=\"yes\"".data) a && containsSeq ("label=\"no".data) b then
      b :: a :: flipEdgeLines tl
    else a :: flipEdgeLines (b :: tl)
  | l => l

/-- `flip_edges`: split on newlines, swap yes/no pairs, rejoin. -/
def flipEdges (l : List Char) : List Char :=
  pyJoinWith '\n' (flipEdgeLines (pySplitOn '\n' l))

/-- Matcher for `(\w+):\{([\d,\s]+)\}([^"]*)`, replaced through
`condense_category_set`. -/
def tryCondenseSet (l : List Char) : Option (List Char × List Char) :=
  let (w, r1) := l.span isWordCh
  if w = [] then none
  else
    match expectSeq [':', lbrace] r1 with
    | none => none
    | some r2 =>
      let (v, r3) := r2.span (fun c => isDigitCh c || c = ',' || isSpaceCh c)
      if v = [] then none
      else
        match r3 with
        | c :: r4 =>
          if c = rbrace then
            let (tail, r5) := r4.span (fun c => c != '"')
            some ((condenseCategorySet w.asString v.asString tail.asString).data, r5)
          else none
        | [] => none

/-- `condense_category_sets`. -/
def condenseCategorySets (l : List Char) : List Char :=
  regexSubAux tryCondenseSet l.length l

/-- Mantissa of a Python float literal: `digits[.digits]` or `.digits`. -/
def pyFloatMantissa (s : List Char) : Option ℚ :=
  let (ip, r1) := s.span isDigitCh
  match r1 with
  | [] => if ip = [] then none else some (digitsVal ip)
  | '.' :: r2 =>
    let (fp, r3) := r2.span isDigitCh
    if r3 = [] then
      if ip = [] && fp = [] then none
      else some ((digitsVal ip : ℚ) + (digitsVal fp : ℚ) / (10 ^ fp.length))
    else none
  | _ => none

/-- Python `float(s)` on the decimal forms occurring in XGBoost DOT dumps
(optional sign, digits, fraction, optional exponent; `inf`/`nan` and
underscore separators are not modelled and yield `none`). -/
def pyFloatOfChars (s : List Char) : Option ℚ :=
  let t := pyStrip s
  let signed : ℚ × List Char :=
    match t with
    | '+' :: tl => (1, tl)
    | '-' :: tl => (-1, tl)
    | _ => (1, t)
  let (mant, expPart) := signed.2.span (fun c => c != 'e' && c != 'E')
  match expPart with
  | [] =>
    match pyFloatMantissa mant with
    | some m => some (signed.1 * m)
    | none => none
  | _ :: etl =>
    let esigned : ℤ × List Char :=
      match etl with
      | '+' :: tl => (1, tl)
      | '-' :: tl => (-1, tl)
      | _ => (1, etl)
    if esigned.2 = [] || !(esigned.2.all isDigitCh) then none
    else
      match pyFloatMantissa mant with
      | some m =>
        some (signed.1 * m * (10 : ℚ) ^ (esigned.1 * (digitsVal esigned.2 : ℤ)))
      | none => none

/-- The seven-step gradient of `value_to_color` (the source's decimal float
literals taken exactly). -/
def colorSteps : List (ℚ × String) :=
  [(-1, "#D94A4A"), (-66/100, "#C45499"), (-33/100, "#B05EB0"), (0, "#9B59B6"),
   (33/100, "#7A6DC3"), (66/100, "#5A80CF"), (1, "#4A90D9")]

/-- Python `min(steps, key=...)`: first element with minimal key. -/
def pyMinByFirst (key : ℚ × String → ℚ) (h : ℚ × String) (t : List (ℚ × String)) :
    ℚ × String :=
  t.foldl (fun best s => if key s < key best then s else best) h

/-- `value_to_color(value)`: clamp `value / 0.025` to `[-1, 1]` and pick
the closest gradient step. -/
def valueToColor (v : ℚ) : String :=
  let normalized := max (-1) (min 1 (v / (25 / 1000)))
  match colorSteps with
  | [] => ""
  | h :: t => (pyMinByFirst (fun s => |s.1 - normalized|) h t).2

/-- Round half to even (the rounding of Python's `format(x, '.1f')`),
applied to exact rationals. -/
def roundHalfEvenQ (x : ℚ) : ℤ :=
  let f := ⌊x⌋
  if x - (f : ℚ) < 1 / 2 then f
  else if 1 / 2 < x - (f : ℚ) then f + 1
  else if f % 2 = 0 then f else f + 1

/-- Python `f"{x:.1f}"` over exact rationals (including the `-0.0` case for
small negative values). -/
def fmt1Q (x : ℚ) : String :=
  let m := roundHalfEvenQ (x * 10)
  (if x < 0 then "-" else "") ++ toString (m.natAbs / 10) ++ "." ++
    toString (m.natAbs % 10)

/-- Matcher for leaf nodes `(\d+) \[ label="leaf=([^"]+)" \]`, replaced
through `replace_leaf` (unchanged when `float()` fails). -/
def tryLeafDef (l : List Char) : Option (List Char × List Char) :=
  let (d, r1) := l.span isDigitCh
  if d = [] then none
  else
    match expectSeq (" [ label=\"leaf=".data) r1 with
    | none => none
    | some r2 =>
      let (v, r3) := r2.span (fun c => c != '"')
      if v = [] then none
      else
        match expectSeq ("\" ]".data) r3 with
        | none => none
        | some r4 =>
          match pyFloatOfChars v with
          | some q =>
            some (d ++ " [ label=\"".data ++ (fmt1Q (q * 1000)).data ++
              "E-3\" fillcolor=\"".data ++ (valueToColor q).data ++ "\" ]".data, r4)
          | none =>
            some (d ++ " [ label=\"leaf=".data ++ v ++ "\" ]".data, r4)

/-- `color_leaves`. -/
def colorLeaves (l : List Char) : List Char :=
  regexSubAux tryLeafDef l.length l

/-- The style block inserted after `digraph {` (the triple-quoted
`style_block` of the source, leading and trailing newline included). -/
def styleBlockStr : String :=
  "\n    graph [rankdir=TB, bgcolor=\"transparent\", nodesep=0.5, ranksep=0.8]\n    node [shape=box, style=\"rounded,filled\", fillcolor=\"#2d2d2d\", fontcolor=\"white\", fontname=\"Helvetica\", fontsize=11, color=\"white\"]\n    edge [fontname=\"Helvetica\", fontsize=10, fontcolor=\"white\", color=\"#666666\"]\n"

/-- `style_dot(dot_string)`: directive removal, edge styling, edge
flipping, category-set condensing, leaf colouring, style-block insertion —
in source order. -/
def styleDot (dotString : String) : String :=
  let s1 := removeGraphDirectives dotString.data
  let s2 := styleEdges s1
  let s3 := flipEdges s2
  let s4 := condenseCategorySets s3
  let s5 := colorLeaves s4
  (replaceFirstSeq ("digraph ".data ++ [lbrace])
    ("digraph ".data ++ [lbrace] ++ '\n' :: styleBlockStr.data) s5).asString

/-- The ambient per-session UI state a Streamlit page function could read
or mutate (`st.session_state`); used to express purity as state-passing. -/
structure SessionState where
  kv : List (String × String)
deriving DecidableEq, Repr

/-- State-passing form of `style_dot`: its body references only its
argument and the pure `re` module, so the faithful translation leaves the
session state untouched and ignores it. -/
def styleDotRun (w : SessionState) (s : String) : SessionState × String :=
  (w, styleDot s)

/-- State-passing form of `get_geometric_midpoint_radius` (body references
only its arguments and `math`). -/
noncomputable def getGeometricMidpointRadiusRun (w : SessionState)
    (r1 θ1 r2 θ2 θmid : ℝ) : SessionState × ℝ :=
  (w, getGeometricMidpointRadius r1 θ1 r2 θ2 θmid)

/-! ## `create_radar_chart` (claim C8)

The radar-chart builder of `src/pages/training.py` lines 275-407 (an
identical copy lives in `src/pages/prediction.py` lines 233-354).  The
item is a JSON-deserialized dict, modelled as an association list of
`JValue`s; every dict access in the source is `item.get(...)`, so the
state-passing translation threads the item through each read and returns
it alongside the figure. -/

/-- A JSON value as deserialized by `response.json()` (numbers collapsed
to exact reals). -/
inductive JValue where
  | jnull
  | num (x : ℝ)
  | str (s : String)
  | boolean (b : Bool)
  | arr (xs : List JValue)

/-- `item.get(k)` as a read on the threaded dict state: returns the value
(`None` for an absent key) and the unchanged dict. -/
def iget (item : List (String × JValue)) (k : String) :
    JValue × List (String × JValue) :=
  ((item.lookup k).getD .jnull, item)

/-- `is_null_value(val)`: `None`, or a string that strips to empty. -/
def isNullValue : JValue → Bool
  | .jnull => true
  | .str s => (pyStrip s.data).isEmpty
  | _ => false

/-- `safe_float(val, default=0.0)`: `float(val)` with `ValueError` /
`TypeError` falling back to the default. -/
noncomputable def safeFloat (v : JValue) (dflt : ℝ := 0) : ℝ :=
  if isNullValue v then dflt
  else
    match v with
    | .num x => x
    | .boolean b => if b then 1 else 0
    | .str s =>
      match pyFloatOfChars s.data with
      | some q => (q : ℝ)
      | none => dflt
    | _ => dflt

/-- Python `int(...)` truncation toward zero on a real. -/
noncomputable def truncToInt (x : ℝ) : ℤ :=
  if 0 ≤ x then ⌊x⌋ else -⌊-x⌋

/-- `safe_int(val, default=0)`: `int(float(val))` with fallback. -/
noncomputable def safeInt (v : JValue) (dflt : ℤ := 0) : ℤ :=
  if isNullValue v then dflt
  else
    match v with
    | .num x => truncToInt x
    | .boolean b => if b then 1 else 0
    | .str s =>
      match pyFloatOfChars s.data with
      | some q => truncToInt (q : ℝ)
      | none => dflt
    | _ => dflt

/-- `normalize_imdb_votes(votes, max_votes=1000000)`. -/
noncomputable def normalizeImdbVotes (votes : ℤ) : ℝ :=
  if votes ≤ 0 then 0
  else min (Real.logb 10 (votes : ℝ) / Real.logb 10 1000000 * 100) 100

/-- `normalize_tmdb_votes(votes, max_votes=100000)`. -/
noncomputable def normalizeTmdbVotes (votes : ℤ) : ℝ :=
  if votes ≤ 0 then 0
  else min (Real.logb 10 (votes : ℝ) / Real.logb 10 100000 * 100) 100

/-- Python float `%` (sign follows the divisor). -/
noncomputable def pyModR (x y : ℝ) : ℝ :=
  x - y * ⌊x / y⌋

/-- Thousands grouping of `f"{n:,}"`, working on the reversed digit
list (a comma before every third digit). -/
def insertCommasRev : List Char → ℕ → List Char
  | [], _ => []
  | c :: tl, k =>
    (if 0 < k ∧ k % 3 = 0 then [','] else []) ++ c :: insertCommasRev tl (k + 1)

/-- Python `f"{n:,}"` for an int. -/
def commaFmtInt (n : ℤ) : String :=
  ((if n < 0 then ['-'] else []) ++
    ((insertCommasRev (toString n.natAbs).data.reverse 0).reverse)).asString

/-- Round half to even on a real (Python `.1f` rounding, exact reals). -/
noncomputable def roundHalfEvenR (x : ℝ) : ℤ :=
  if x - (⌊x⌋ : ℝ) < 1 / 2 then ⌊x⌋
  else if 1 / 2 < x - (⌊x⌋ : ℝ) then ⌊x⌋ + 1
  else if ⌊x⌋ % 2 = 0 then ⌊x⌋ else ⌊x⌋ + 1

/-- Python `f"{x:.1f}"` on a real. -/
noncomputable def fmt1R (x : ℝ) : String :=
  let m := roundHalfEvenR (x * 10)
  (if x < 0 then "-" else "") ++ toString (m.natAbs / 10) ++ "." ++
    toString (m.natAbs % 10)

/-- `NULL_COLOR` (dark gray for NULL values). -/
def NULL_COLOR : String := "rgba(80, 80, 80, 0.6)"

/-- `NULL_VALUE` (normalized display value for NULL metrics). -/
noncomputable def NULL_VALUE : ℝ := 10

/-- One entry of the `metrics` list. -/
structure Metric where
  name : String
  dbName : String
  angle : ℝ
  value : ℝ
  raw : JValue
  isNull : Bool
  color : String

/-- A `go.Scatterpolar` trace as configured by the source. -/
structure PolarTrace where
  r : List ℝ
  theta : List ℝ
  fill : String
  fillcolor : String
  lineColor : String
  lineWidth : ℝ
  mode : String
  name : String
  hovertemplate : String

/-- The constant layout configured by `fig.update_layout`. -/
structure RadarLayout where
  radialRange : ℝ × ℝ
  radialShowTicks : Bool
  angularTicks : List ℝ
  showlegend : Bool

/-- A figure: its traces in insertion order plus the layout. -/
structure RadarFigure where
  traces : List PolarTrace
  layout : RadarLayout

/-- The layout values set by the source. -/
noncomputable def radarLayoutConst : RadarLayout :=
  { radialRange := (0, 100), radialShowTicks := false,
    angularTicks := [0, 60, 120, 180, 240, 300], showlegend := false }

/-- The `metrics` list built from the six raw reads (colors, angles and
normalizations exactly as in the source). -/
noncomputable def radarMetrics (rtRaw metaRaw imdbRaw ivotesRaw tmdbRaw tvotesRaw :
    JValue) : List Metric :=
  [{ name := "RT", dbName := "rt_score", angle := 0,
     value := if isNullValue rtRaw then NULL_VALUE else safeFloat rtRaw,
     raw := rtRaw, isNull := isNullValue rtRaw,
     color := if isNullValue rtRaw then NULL_COLOR else "rgba(214, 39, 40, 0.6)" },
   { name := "Meta", dbName := "metascore", angle := 60,
     value := if isNullValue metaRaw then NULL_VALUE else safeFloat metaRaw,
     raw := metaRaw, isNull := isNullValue metaRaw,
     color := if isNullValue metaRaw then NULL_COLOR else "rgba(44, 160, 44, 0.6)" },
   { name := "IMDB", dbName := "imdb_rating", angle := 120,
     value := if isNullValue imdbRaw then NULL_VALUE else safeFloat imdbRaw,
     raw := imdbRaw, isNull := isNullValue imdbRaw,
     color := if isNullValue imdbRaw then NULL_COLOR else "rgba(255, 197, 24, 0.6)" },
   { name := "iVotes", dbName := "imdb_votes", angle := 180,
     value := if isNullValue ivotesRaw then NULL_VALUE
       else normalizeImdbVotes (safeInt ivotesRaw),
     raw := ivotesRaw, isNull := isNullValue ivotesRaw,
     color := if isNullValue ivotesRaw then NULL_COLOR else "rgba(153, 115, 0, 0.6)" },
   { name := "TMDB", dbName := "tmdb_rating", angle := 240,
     value := if isNullValue tmdbRaw then NULL_VALUE else safeFloat tmdbRaw * 10,
     raw := tmdbRaw, isNull := isNullValue tmdbRaw,
     color := if isNullValue tmdbRaw then NULL_COLOR else "rgba(144, 206, 161, 0.6)" },
   { name := "tVotes", dbName := "tmdb_votes", angle := 300,
     value := if isNullValue tvotesRaw then NULL_VALUE
       else normalizeTmdbVotes (safeInt tvotesRaw),
     raw := tvotesRaw, isNull := isNullValue tvotesRaw,
     color := if isNullValue tvotesRaw then NULL_COLOR else "rgba(1, 180, 228, 0.6)" }]

/-- The hover value: `NULL`, comma-grouped int for vote counts, `.1f`
float otherwise. -/
noncomputable def rawDisplay (m : Metric) : String :=
  if m.isNull then "NULL"
  else if containsSeq ("votes".data) m.dbName.data then commaFmtInt (safeInt m.raw)
  else fmt1R (safeFloat m.raw)

/-- The wedge trace for metric `i` (midpoint angles at ±30° mod 360,
midpoint radii via `get_geometric_midpoint_radius`). -/
noncomputable def wedgeTrace (metrics : List Metric) (i : ℕ) : PolarTrace :=
  let dfltM : Metric := ⟨"", "", 0, 0, .jnull, true, ""⟩
  let m := metrics.getD i dfltM
  let mp := metrics.getD ((i + 5) % 6) dfltM
  let mn := metrics.getD ((i + 1) % 6) dfltM
  let midBefore := pyModR (m.angle - 30) 360
  let midAfter := pyModR (m.angle + 30) 360
  let valMidBefore :=
    getGeometricMidpointRadius mp.value mp.angle m.value m.angle midBefore
  let valMidAfter :=
    getGeometricMidpointRadius m.value m.angle mn.value mn.angle midAfter
  { r := [0, valMidBefore, m.value, valMidAfter, 0],
    theta := [midBefore, midBefore, m.angle, midAfter, midBefore],
    fill := "toself", fillcolor := m.color,
    lineColor := "rgba(0,0,0,0)", lineWidth := 0, mode := "lines",
    name := m.dbName,
    hovertemplate := m.dbName ++ ": " ++ rawDisplay m ++ "<extra></extra>" }

/-- `create_radar_chart(item)` in state-passing form: the six raw reads
thread the item; the rest of the body only computes.  Returns the figure
and the item state after the call. -/
noncomputable def createRadarChart (item : List (String × JValue)) :
    RadarFigure × List (String × JValue) :=
  let (rtRaw, item) := iget item "rt_score"
  let (metaRaw, item) := iget item "metascore"
  let (imdbRaw, item) := iget item "imdb_rating"
  let (ivotesRaw, item) := iget item "imdb_votes"
  let (tmdbRaw, item) := iget item "tmdb_rating"
  let (tvotesRaw, item) := iget item "tmdb_votes"
  let metrics := radarMetrics rtRaw metaRaw imdbRaw ivotesRaw tmdbRaw tvotesRaw
  ({ traces := (List.range 6).map (wedgeTrace metrics),
     layout := radarLayoutConst }, item)

/-- A concrete `ConfigData` for witnesses. -/
def cfg0 : ConfigData :=
  { rear_diff_host := some "h", rear_diff_port := some "1",
    rear_diff_pref := "rear-diff", api_timeout := 30,
    mlflow_host := none, mlflow_port := none,
    mlflow_username := none, mlflow_password := none }

/-- Concrete per-status responses for the C10 witness: the hash `h1`
appears under both statuses (with different timestamps). -/
def responses0 : String → List (List (String × String)) := fun s =>
  if s = "downloaded" then
    [[("hash", "h1"), ("updated_at", "2024-01-01")],
     [("hash", "h2"), ("updated_at", "2024-03-01")]]
  else
    [[("hash", "h1"), ("updated_at", "2024-02-01")],
     [("hash", "h3"), ("updated_at", "2024-02-15")]]

theorem mem_expandPair {p : ℤ × ℤ} {n : ℤ} :
    n ∈ expandPair p ↔ p.1 ≤ n ∧ n ≤ p.2 := by
  simp only [expandPair, List.mem_map, List.mem_range]
  constructor
  · rintro ⟨i, hi, rfl⟩
    omega
  · rintro ⟨h1, h2⟩
    exact ⟨(n - p.1).toNat, by omega, by omega⟩

theorem mem_expandRanges {rs : List (ℤ × ℤ)} {n : ℤ} :
    n ∈ expandRanges rs ↔ ∃ p ∈ rs, p.1 ≤ n ∧ n ≤ p.2 := by
  simp [expandRanges, List.mem_flatMap, mem_expandPair]

theorem expandRanges_append {l₁ l₂ : List (ℤ × ℤ)} {n : ℤ} :
    n ∈ expandRanges (l₁ ++ l₂) ↔ n ∈ expandRanges l₁ ∨ n ∈ expandRanges l₂ := by
  simp [expandRanges]

theorem mem_buildRangesAux (n : ℤ) :
    ∀ (tl : List ℤ) (rs re : ℤ) (acc : List (ℤ × ℤ)), rs ≤ re →
      (n ∈ expandRanges (buildRangesAux tl rs re acc) ↔
        n ∈ expandRanges acc ∨ (rs ≤ n ∧ n ≤ re) ∨ n ∈ tl) := by
  intro tl
  induction tl with
  | nil =>
    intro rs re acc h
    simp only [buildRangesAux, expandRanges_append, List.not_mem_nil, or_false]
    have : n ∈ expandRanges [(rs, re)] ↔ rs ≤ n ∧ n ≤ re := by
      simp [mem_expandRanges]
    rw [this]
  | cons v tl ih =>
    intro rs re acc h
    simp only [buildRangesAux]
    by_cases hv : v = re + 1
    · rw [if_pos hv, ih rs v acc (by omega)]
      simp only [List.mem_cons]
      constructor
      · rintro (h' | ⟨h1, h2⟩ | h')
        · exact Or.inl h'
        · rcases lt_or_le re n with hlt | hle
          · exact Or.inr (Or.inr (Or.inl (by omega)))
          · exact Or.inr (Or.inl ⟨h1, hle⟩)
        · exact Or.inr (Or.inr (Or.inr h'))
      · rintro (h' | ⟨h1, h2⟩ | rfl | h')
        · exact Or.inl h'
        · exact Or.inr (Or.inl ⟨h1, by omega⟩)
        · exact Or.inr (Or.inl ⟨by omega, by omega⟩)
        · exact Or.inr (Or.inr h')
    · rw [if_neg hv, ih v v (acc ++ [(rs, re)]) le_rfl, expandRanges_append]
      have : n ∈ expandRanges [(rs, re)] ↔ rs ≤ n ∧ n ≤ re := by
        simp [mem_expandRanges]
      rw [this]
      simp only [List.mem_cons]
      constructor
      · rintro ((h' | h') | ⟨h1, h2⟩ | h')
        · exact Or.inl h'
        · exact Or.inr (Or.inl h')
        · exact Or.inr (Or.inr (Or.inl (by omega)))
        · exact Or.inr (Or.inr (Or.inr h'))
      · rintro (h' | ⟨h1, h2⟩ | rfl | h')
        · exact Or.inl (Or.inl h')
        · exact Or.inl (Or.inr ⟨h1, h2⟩)
        · exact Or.inr (Or.inl ⟨le_rfl, le_rfl⟩)
        · exact Or.inr (Or.inr h')

theorem mem_expand_buildRanges (l : List ℤ) (n : ℤ) :
    n ∈ expandRanges (buildRanges l) ↔ n ∈ l := by
  cases l with
  | nil => simp [buildRanges, expandRanges]
  | cons v tl =>
    rw [buildRanges, mem_buildRangesAux n tl v v [] le_rfl]
    simp only [expandRanges, List.flatMap_nil, List.not_mem_nil, false_or, List.mem_cons]
    constructor
    · rintro (⟨h1, h2⟩ | h')
      · exact Or.inl (by omega)
      · exact Or.inr h'
    · rintro (rfl | h')
      · exact Or.inl ⟨le_rfl, le_rfl⟩
      · exact Or.inr h'

theorem isMaxRun_buildRangesAux (S : List ℤ) :
    ∀ (tl : List ℤ) (rs re : ℤ) (acc : List (ℤ × ℤ)),
      List.Pairwise (· < ·) (re :: tl) → rs ≤ re →
      (∀ n : ℤ, rs ≤ n → n ≤ re → n ∈ S) → (rs - 1) ∉ S →
      (∀ n : ℤ, n ∈ S → n ≤ re ∨ n ∈ tl) → (∀ n : ℤ, n ∈ tl → n ∈ S) →
      (∀ p ∈ acc, IsMaxRun S p) →
      ∀ p ∈ buildRangesAux tl rs re acc, IsMaxRun S p := by
  intro tl
  induction tl with
  | nil =>
    intro rs re acc _ hrs hcov hlow hhigh _ hacc p hp
    simp only [buildRangesAux, List.mem_append, List.mem_singleton] at hp
    rcases hp with hp | rfl
    · exact hacc p hp
    · refine ⟨hrs, hcov, hlow, fun hmem => ?_⟩
      rcases hhigh _ hmem with h | h
      · omega
      · exact absurd h (List.not_mem_nil _)
  | cons v tl ih =>
    intro rs re acc hpw hrs hcov hlow hhigh hsub hacc
    have hrev : re < v := (List.pairwise_cons.mp hpw).1 v (List.mem_cons_self v tl)
    have hptl : List.Pairwise (· < ·) (v :: tl) := (List.pairwise_cons.mp hpw).2
    have hvtl : ∀ x ∈ tl, v < x := (List.pairwise_cons.mp hptl).1
    simp only [buildRangesAux]
    by_cases hv : v = re + 1
    · rw [if_pos hv]
      refine ih rs v acc hptl (by omega) ?_ hlow ?_ ?_ hacc
      · intro n h1 h2
        rcases lt_or_le re n with hlt | hle
        · have : n = v := by omega
          exact this ▸ hsub v (List.mem_cons_self v tl)
        · exact hcov n h1 hle
      · intro n hn
        rcases hhigh n hn with h | h
        · exact Or.inl (by omega)
        · rcases List.mem_cons.mp h with rfl | h'
          · exact Or.inl le_rfl
          · exact Or.inr h'
      · intro n hn
        exact hsub n (List.mem_cons_of_mem v hn)
    · rw [if_neg hv]
      refine ih v v (acc ++ [(rs, re)]) hptl le_rfl ?_ ?_ ?_ ?_ ?_
      · intro n h1 h2
        have : n = v := by omega
        exact this ▸ hsub v (List.mem_cons_self v tl)
      · intro hmem
        rcases hhigh _ hmem with h | h
        · omega
        · rcases List.mem_cons.mp h with h' | h'
          · omega
          · have := hvtl _ h'
            omega
      · intro n hn
        rcases hhigh n hn with h | h
        · exact Or.inl (by omega)
        · rcases List.mem_cons.mp h with rfl | h'
          · exact Or.inl le_rfl
          · exact Or.inr h'
      · intro n hn
        exact hsub n (List.mem_cons_of_mem v hn)
      · intro p hp
        rcases List.mem_append.mp hp with hp' | hp'
        · exact hacc p hp'
        · rcases List.mem_singleton.mp hp' with rfl
          refine ⟨hrs, hcov, hlow, fun hmem => ?_⟩
          rcases hhigh _ hmem with h | h
          · omega
          · rcases List.mem_cons.mp h with h' | h'
            · omega
            · have := hvtl _ h'
              omega

theorem isMaxRun_buildRanges {l : List ℤ} (hl : List.Pairwise (· < ·) l) :
    ∀ p ∈ buildRanges l, IsMaxRun l p := by
  cases l with
  | nil => simp [buildRanges]
  | cons v tl =>
    have hvtl : ∀ x ∈ tl, v < x := (List.pairwise_cons.mp hl).1
    refine isMaxRun_buildRangesAux (v :: tl) tl v v [] hl le_rfl ?_ ?_ ?_ ?_ (by simp)
    · intro n h1 h2
      have : n = v := by omega
      simp [this]
    · intro hmem
      rcases List.mem_cons.mp hmem with h | h
      · omega
      · have := hvtl _ h
        omega
    · intro n hn
      rcases List.mem_cons.mp hn with rfl | h
      · exact Or.inl le_rfl
      · exact Or.inr h
    · intro n hn
      exact List.mem_cons_of_mem v hn

theorem isMaxRun_unique {S : List ℤ} {p q : ℤ × ℤ} (hp : IsMaxRun S p)
    (hq : IsMaxRun S q) {n : ℤ} (h1 : p.1 ≤ n) (h2 : n ≤ p.2) (h3 : q.1 ≤ n)
    (h4 : n ≤ q.2) : p = q := by
  obtain ⟨hple, hpcov, hplow, hphigh⟩ := hp
  obtain ⟨hqle, hqcov, hqlow, hqhigh⟩ := hq
  have e2 : p.2 = q.2 := by
    rcases lt_trichotomy p.2 q.2 with h | h | h
    · exact absurd (hqcov (p.2 + 1) (by omega) (by omega)) hphigh
    · exact h
    · exact absurd (hpcov (q.2 + 1) (by omega) (by omega)) hqhigh
  have e1 : p.1 = q.1 := by
    rcases lt_trichotomy p.1 q.1 with h | h | h
    · exact absurd (hpcov (q.1 - 1) (by omega) (by omega)) hqlow
    · exact h
    · exact absurd (hqcov (p.1 - 1) (by omega) (by omega)) hplow
  exact Prod.ext e1 e2

theorem maxRun_mem_buildRanges {l : List ℤ} (hl : List.Pairwise (· < ·) l)
    {q : ℤ × ℤ} (hq : IsMaxRun l q) : q ∈ buildRanges l := by
  have hmem : q.1 ∈ l := hq.2.1 q.1 le_rfl hq.1
  have : q.1 ∈ expandRanges (buildRanges l) := (mem_expand_buildRanges l q.1).mpr hmem
  obtain ⟨p, hp, hp1, hp2⟩ := mem_expandRanges.mp this
  have hpmax : IsMaxRun l p := isMaxRun_buildRanges hl p hp
  have : p = q := isMaxRun_unique hpmax hq hp1 hp2 le_rfl hq.1
  exact this ▸ hp

theorem parseAll_ne_nil {f : α → Option β} {l : List α} {ys : List β}
    (hl : l ≠ []) (h : parseAll f l = some ys) : ys ≠ [] := by
  cases l with
  | nil => exact absurd rfl hl
  | cons x tl =>
    simp only [parseAll] at h
    rcases hx : f x with _ | y <;> rw [hx] at h
    · exact absurd h (by simp)
    · rcases ht : parseAll f tl with _ | zs <;> rw [ht] at h
      · exact absurd h (by simp)
      · simp only [Option.some.injEq] at h
        subst h
        simp

theorem pySplitAux_ne_nil (sep : Char) :
    ∀ (s cur : List Char), pySplitAux sep s cur ≠ [] := by
  intro s
  induction s with
  | nil => intro cur; simp [pySplitAux]
  | cons c tl ih =>
    intro cur
    simp only [pySplitAux]
    by_cases h : c = sep
    · rw [if_pos h]
      simp
    · rw [if_neg h]
      exact ih (c :: cur)

theorem gm_line_algebra (a b x1 y1 x2 y2 d : ℝ) (hd : d ≠ 0)
    (hdef : d = a * (y2 - y1) - b * (x2 - x1)) :
    ((x1 * (y2 - y1) - y1 * (x2 - x1)) / d * a - x1) * (y2 - y1) =
      ((x1 * (y2 - y1) - y1 * (x2 - x1)) / d * b - y1) * (x2 - x1) := by
  field_simp
  subst hdef
  ring

theorem mem_sortInt {vals : List ℤ} {n : ℤ} : n ∈ sortInt vals ↔ n ∈ vals :=
  (List.perm_insertionSort (fun a b : ℤ => a ≤ b) vals).mem_iff

theorem sortInt_ne_nil {vals : List ℤ} (h : vals ≠ []) : sortInt vals ≠ [] := by
  intro hc
  apply h
  have hlen := (List.perm_insertionSort (fun a b : ℤ => a ≤ b) vals).length_eq
  rw [sortInt] at hc
  rw [hc] at hlen
  exact List.length_eq_zero.mp hlen.symm

theorem pairwise_lt_sortInt {vals : List ℤ} (h : vals.Nodup) :
    List.Pairwise (· < ·) (sortInt vals) := by
  have hs : List.Pairwise (fun a b : ℤ => a ≤ b) (sortInt vals) :=
    List.sorted_insertionSort (fun a b : ℤ => a ≤ b) vals
  have hnd : (sortInt vals).Nodup :=
    ((List.perm_insertionSort (fun a b : ℤ => a ≤ b) vals).nodup_iff).mpr h
  exact (hs.and hnd).imp fun hab => lt_of_le_of_ne hab.1 hab.2

theorem isMaxRun_congr {S T : List ℤ} (h : ∀ n : ℤ, n ∈ S ↔ n ∈ T) (p : ℤ × ℤ) :
    IsMaxRun S p ↔ IsMaxRun T p := by
  simp only [IsMaxRun, h]

/-- **C1.** `get_geometric_midpoint_radius` returns the clamped-at-0
parameter `t` of the point where the ray at `theta_mid` meets the straight
line through the Cartesian images of `(r1, theta1)` and `(r2, theta2)` —
the point `t * (cos θm, sin θm)` is collinear with the two endpoints —
except that when `|denom| < 1e-10` it falls back to the mean `(r1+r2)/2`. -/
theorem get_geometric_midpoint_radius_spec (r1 θ1 r2 θ2 θmid : ℝ) :
    (|gmDenom r1 θ1 r2 θ2 θmid| < 1e-10 ∧
      getGeometricMidpointRadius r1 θ1 r2 θ2 θmid = (r1 + r2) / 2) ∨
    (1e-10 ≤ |gmDenom r1 θ1 r2 θ2 θmid| ∧
      ∃ t : ℝ, getGeometricMidpointRadius r1 θ1 r2 θ2 θmid = max 0 t ∧
        (t * Real.cos (degToRad θmid) - polarX r1 θ1) *
            (polarY r2 θ2 - polarY r1 θ1) =
          (t * Real.sin (degToRad θmid) - polarY r1 θ1) *
            (polarX r2 θ2 - polarX r1 θ1)) := by
  by_cases h : |gmDenom r1 θ1 r2 θ2 θmid| < 1e-10
  · exact Or.inl ⟨h, by rw [getGeometricMidpointRadius, if_pos h]⟩
  · push_neg at h
    refine Or.inr ⟨h, gmT r1 θ1 r2 θ2 θmid,
      by rw [getGeometricMidpointRadius, if_neg (not_lt.mpr h)], ?_⟩
    have hd : gmDenom r1 θ1 r2 θ2 θmid ≠ 0 := by
      intro hc
      rw [hc, abs_zero] at h
      norm_num at h
    have halg := gm_line_algebra (Real.cos (degToRad θmid)) (Real.sin (degToRad θmid))
      (polarX r1 θ1) (polarY r1 θ1) (polarX r2 θ2) (polarY r2 θ2)
      (gmDenom r1 θ1 r2 θ2 θmid) hd (by rw [gmDenom])
    simpa only [gmT] using halg

/-- **C4 (amended).** On a fragment `feature:{values}rest`: if any value
fails to parse as a Python int the fragment is returned unchanged;
otherwise the fragment is rewritten to `feature:{ranges}rest`, the produced
ranges denote exactly the set of parsed values (order and duplicates do not
affect the denoted set), and — provided the parsed values are pairwise
distinct — the produced ranges are exactly the maximal runs of consecutive
values (length-≥2 runs rendered `a-b`, isolated values as singletons). -/
theorem condense_category_set_spec (feature valuesStr rest : String) :
    (parseAll pyIntOfChars (pySplitOn ',' valuesStr.data) = none →
      condenseCategorySet feature valuesStr rest =
        feature ++ ":\x7b" ++ valuesStr ++ "\x7d" ++ rest) ∧
    (∀ vals : List ℤ, parseAll pyIntOfChars (pySplitOn ',' valuesStr.data) = some vals →
      condenseCategorySet feature valuesStr rest =
        feature ++ ":\x7b" ++ renderRanges (buildRanges (sortInt vals)) ++ "\x7d" ++ rest ∧
      (∀ n : ℤ, n ∈ expandRanges (buildRanges (sortInt vals)) ↔ n ∈ vals) ∧
      (vals.Nodup →
        ∀ p : ℤ × ℤ, p ∈ buildRanges (sortInt vals) ↔ IsMaxRun vals p)) := by
  constructor
  · intro h
    simp [condenseCategorySet, h]
  · intro vals h
    have hne : vals ≠ [] := parseAll_ne_nil (pySplitAux_ne_nil ',' valuesStr.data []) h
    have hsne : sortInt vals ≠ [] := sortInt_ne_nil hne
    refine ⟨?_, ?_, ?_⟩
    · simp only [condenseCategorySet, h]
      rw [if_neg hsne]
    · intro n
      rw [mem_expand_buildRanges]
      exact mem_sortInt
    · intro hnd p
      have hpw := pairwise_lt_sortInt hnd
      constructor
      · intro hp
        exact (isMaxRun_congr (fun n => mem_sortInt) p).mp (isMaxRun_buildRanges hpw p hp)
      · intro hq
        exact maxRun_mem_buildRanges hpw ((isMaxRun_congr (fun n => mem_sortInt) p).mpr hq)

/-- Witness for C4 at the fragment `f:{1,3,4}`: parsing succeeds and the
theorem yields the rewriting and the denoted-set equivalence there. -/
theorem condense_category_set_spec_witness :
    condenseCategorySet "f" "1,3,4" "" =
      "f" ++ ":\x7b" ++ renderRanges (buildRanges (sortInt [1, 3, 4])) ++ "\x7d" ++ "" ∧
    ((3:ℤ) ∈ expandRanges (buildRanges (sortInt [1, 3, 4])) ↔ (3:ℤ) ∈ [(1:ℤ), 3, 4]) := by
  have h := (condense_category_set_spec "f" "1,3,4" "").2 [1, 3, 4] (by decide)
  exact ⟨h.1, h.2.1 3⟩

/-- **C4 counterexample.** On `f:{1,2,2,3}` every value parses as an
integer, yet the produced ranges are `1-2,2-3`: the pair `(1,2)` is not a
maximal run of the parsed values `[1,2,2,3]` (3 is also present), so the
claim's "every maximal run of consecutive integers of length at least 2 is
rendered as a-b" fails in the presence of duplicate values. -/
theorem condense_category_set_counterexample :
    parseAll pyIntOfChars (pySplitOn ',' ("1,2,2,3" : String).data) =
      some [1, 2, 2, 3] ∧
    condenseCategorySet "f" "1,2,2,3" "" = "f:\x7b1-2,2-3\x7d" ∧
    ¬ (∀ p ∈ buildRanges (sortInt [1, 2, 2, 3]), IsMaxRun [(1:ℤ), 2, 2, 3] p) := by
  refine ⟨by decide, by decide, fun h => ?_⟩
  exact (h (1, 2) (by decide)).2.2.2 (by decide)

theorem configMissing_eq_nil_iff (env : String → Option String) :
    configMissing env = [] ↔
      (falsyOptStr (env "REAR_DIFF_HOST") = false ∧
        falsyOptStr (env "REAR_DIFF_PORT_EXTERNAL") = false) := by
  cases hh : falsyOptStr (env "REAR_DIFF_HOST") <;>
    cases hp : falsyOptStr (env "REAR_DIFF_PORT_EXTERNAL") <;>
      simp [configMissing, hh, hp]

/-- **C5 (amended).** Provided `CENTER_CONSOLE_API_TIMEOUT` (defaulting to
"30") parses as a Python int, constructing `Config` raises `ValueError`
iff `REAR_DIFF_HOST` or `REAR_DIFF_PORT_EXTERNAL` is unset or empty, the
message names exactly the missing variables, and on success `base_url` is
`http://HOST:PORT/PREFIX/` with `PREFIX` defaulting to `rear-diff`.
(Without that proviso the claim fails: a malformed timeout raises
`ValueError` from `int()` before validation, see the counterexample.) -/
theorem mkConfig_spec (env : String → Option String) (t : ℤ)
    (hto : pyIntOfString ((env "CENTER_CONSOLE_API_TIMEOUT").getD "30") = some t) :
    ((∃ e, mkConfig env = .error e) ↔
      (falsyOptStr (env "REAR_DIFF_HOST") = true ∨
        falsyOptStr (env "REAR_DIFF_PORT_EXTERNAL") = true)) ∧
    ((falsyOptStr (env "REAR_DIFF_HOST") = true ∨
        falsyOptStr (env "REAR_DIFF_PORT_EXTERNAL") = true) →
      mkConfig env = .error (.valueError
        ("Missing required environment variables: " ++
          String.intercalate ", " (configMissing env)))) ∧
    (¬ (falsyOptStr (env "REAR_DIFF_HOST") = true ∨
        falsyOptStr (env "REAR_DIFF_PORT_EXTERNAL") = true) →
      ∃ c, mkConfig env = .ok c ∧
        baseUrl c = "http://" ++ (env "REAR_DIFF_HOST").getD "" ++ ":" ++
          (env "REAR_DIFF_PORT_EXTERNAL").getD "" ++ "/" ++
          (env "REAR_DIFF_PREFIX").getD "rear-diff" ++ "/") := by
  by_cases hm : configMissing env = []
  · obtain ⟨hh, hp⟩ := (configMissing_eq_nil_iff env).mp hm
    have hcfg : mkConfig env = .ok
        { rear_diff_host := env "REAR_DIFF_HOST"
          rear_diff_port := env "REAR_DIFF_PORT_EXTERNAL"
          rear_diff_pref := (env "REAR_DIFF_PREFIX").getD "rear-diff"
          api_timeout := t
          mlflow_host := env "CENTER_CONSOLE_MLFLOW_HOST"
          mlflow_port := env "CENTER_CONSOLE_MLFLOW_PORT"
          mlflow_username := env "CENTER_CONSOLE_MLFLOW_USERNAME"
          mlflow_password := env "CENTER_CONSOLE_MLFLOW_PASSWORD" } := by
      simp only [mkConfig, hto]
      rw [if_neg (by simp [hm])]
    refine ⟨?_, ?_, ?_⟩
    · rw [hcfg]
      simp [hh, hp]
    · intro hcon
      rw [hh, hp] at hcon
      simp at hcon
    · intro _
      exact ⟨_, hcfg, rfl⟩
  · have hcfg : mkConfig env = .error (.valueError
        ("Missing required environment variables: " ++
          String.intercalate ", " (configMissing env))) := by
      simp only [mkConfig, hto]
      rw [if_pos hm]
    have hor : falsyOptStr (env "REAR_DIFF_HOST") = true ∨
        falsyOptStr (env "REAR_DIFF_PORT_EXTERNAL") = true := by
      cases hh : falsyOptStr (env "REAR_DIFF_HOST")
      · cases hp : falsyOptStr (env "REAR_DIFF_PORT_EXTERNAL")
        · exact absurd ((configMissing_eq_nil_iff env).mpr ⟨hh, hp⟩) hm
        · exact Or.inr rfl
      · exact Or.inl rfl
    refine ⟨?_, fun _ => hcfg, fun hcon => absurd hor hcon⟩
    exact ⟨fun _ => hor, fun _ => ⟨_, hcfg⟩⟩

/-- Witness for C5: on a well-formed environment the constructor succeeds
and `base_url` has the specified shape. -/
theorem mkConfig_spec_witness :
    ∃ c, mkConfig envOk = .ok c ∧
      baseUrl c = "http://" ++ (envOk "REAR_DIFF_HOST").getD "" ++ ":" ++
        (envOk "REAR_DIFF_PORT_EXTERNAL").getD "" ++ "/" ++
        (envOk "REAR_DIFF_PREFIX").getD "rear-diff" ++ "/" :=
  (mkConfig_spec envOk 30 (by decide)).2.2 (by decide)

/-- **C5 counterexample.** With `REAR_DIFF_HOST` and
`REAR_DIFF_PORT_EXTERNAL` both set and non-empty but
`CENTER_CONSOLE_API_TIMEOUT=abc`, construction still raises `ValueError`
(from `int()` at `src/config.py` line 13, before `_validate_config` runs),
and its message does not name missing variables — refuting the claimed
"if and only if". -/
theorem mkConfig_counterexample :
    (∃ e, mkConfig envTimeoutGarbage = .error e) ∧
    falsyOptStr (envTimeoutGarbage "REAR_DIFF_HOST") = false ∧
    falsyOptStr (envTimeoutGarbage "REAR_DIFF_PORT_EXTERNAL") = false ∧
    mkConfig envTimeoutGarbage =
      .error (.valueError ("invalid literal for int() with base 10: " ++ "abc")) := by
  refine ⟨⟨.valueError ("invalid literal for int() with base 10: " ++ "abc"), ?_⟩,
    by decide, by decide, ?_⟩ <;> rfl

/-- **C3.** `update_label` (src/app.py) and `rerun_metadata`
(src/pages/prediction.py) call `Config` methods that `class Config` does
not define; the `AttributeError` is raised before any HTTP request, caught
by the enclosing handler, and `False` is returned — for every argument
value, with no request issued. -/
theorem dead_endpoints_always_false (cfg : ConfigData) (imdbId newLabel : String) :
    updateLabelApp cfg imdbId newLabel =
      ([], ["Failed to update label for " ++ imdbId ++ ": " ++
        "'Config' object has no attribute 'get_label_update_endpoint'"], false) ∧
    rerunMetadataPred cfg imdbId =
      ([], ["Failed to rerun metadata for " ++ imdbId ++ ": " ++
        "'Config' object has no attribute 'get_training_rerun_metadata_endpoint'"],
        false) := by
  constructor <;> rfl

/-- **C6 counterexample.** `fetch_latest_run` in `src/pages/algo.py`
issues a POST (the MLflow `runs/search` call), so not every request made by
a dashboard page uses GET or PATCH. -/
theorem request_methods_counterexample :
    ¬ (∀ s ∈ requestSites, s.method = HMethod.get ∨ s.method = HMethod.patch) := by
  intro h
  have hmem : (⟨"src/pages/algo.py", "fetch_latest_run", .post⟩ : ReqSite) ∈
      requestSites := by decide
  rcases h _ hmem with hc | hc <;> cases hc

/-- **C6 (amended).** Every `requests.*` call site in the repository uses
GET or PATCH, with the single exception of the MLflow run-search POST in
`fetch_latest_run` of `src/pages/algo.py`. -/
theorem request_methods_amended :
    ∀ s ∈ requestSites,
      s.method = HMethod.get ∨ s.method = HMethod.patch ∨
        (s.file = "src/pages/algo.py" ∧ s.fn = "fetch_latest_run" ∧
          s.method = HMethod.post) := by
  decide

/-- Witness for C6 (amended) at the `fetch_training_data` GET site. -/
theorem request_methods_amended_witness :
    (⟨"src/app.py", "fetch_training_data", HMethod.get⟩ : ReqSite).method = HMethod.get ∨
      (⟨"src/app.py", "fetch_training_data", HMethod.get⟩ : ReqSite).method = HMethod.patch ∨
      ((⟨"src/app.py", "fetch_training_data", HMethod.get⟩ : ReqSite).file =
          "src/pages/algo.py" ∧
        (⟨"src/app.py", "fetch_training_data", HMethod.get⟩ : ReqSite).fn =
          "fetch_latest_run" ∧
        (⟨"src/app.py", "fetch_training_data", HMethod.get⟩ : ReqSite).method =
          HMethod.post) :=
  request_methods_amended ⟨"src/app.py", "fetch_training_data", HMethod.get⟩ (by decide)

/-- **C2 counterexample.** `fetch_unreviewed_count`
(src/pages/training.py) issues a GET against the REST API and catches
exceptions, but surfaces no inline UI message at all (its handler silently
returns the count `0`, which is neither `None` nor `False`). -/
theorem error_surfacing_counterexample :
    ¬ surfacesErrorInline (fetchUnreviewedCount (α := Unit)) := by
  intro h
  exact h "connection refused" rfl

/-- **C2 (amended).** Every modelled HTTP-calling function catches the
exception inside itself and returns normally with a failure value, never
retrying (one call attempt per invocation by construction) and never
propagating; `fetch_training_data` surfaces the exception text via
`st.error` and returns `None`, but the count helpers return `0` silently
and `make_patch_call` returns `(False, str(e))` for its caller to
display. -/
theorem error_handling_amended (α : Type) (e : String) :
    fetchTrainingDataApp (α := α) (.error e) =
      (["Failed to fetch training data: " ++ e], none) ∧
    fetchUnreviewedCount (α := α) (.error e) = ([], 0) ∧
    fetchErrorCount (α := α) (.error e) = ([], 0) ∧
    makePatchCallMedia (α := α) (.error e) = ([], (false, Sum.inr e)) :=
  ⟨rfl, rfl, rfl, rfl⟩

/-- **C9.** The pipeline-update submit action (identical in
`src/pages/media.py` and `src/pages/media_pipeline.py`): when all three
selected values equal the current ones no request is issued and "No changes
detected" is shown; otherwise the PATCH payload is the item's hash plus
exactly those of `pipeline_status`, `error_status`, `rejection_status`
whose selected value differs. -/
theorem pipeline_submit_spec (hash curP newP : String) (curE newE : Bool)
    (curR newR : String) :
    mediaSubmitAction hash curP newP curE newE curR newR =
      mediaPipelineSubmitAction hash curP newP curE newE curR newR ∧
    (newP = curP ∧ newE = curE ∧ newR = curR →
      mediaSubmitAction hash curP newP curE newE curR newR =
        (none, ["No changes detected"])) ∧
    (¬ (newP = curP ∧ newE = curE ∧ newR = curR) →
      mediaSubmitAction hash curP newP curE newE curR newR =
        (some (("hash", PVal.s hash) ::
          buildPipelineUpdates curP newP curE newE curR newR), [])) ∧
    (("pipeline_status", PVal.s newP) ∈
        buildPipelineUpdates curP newP curE newE curR newR ↔ newP ≠ curP) ∧
    (("error_status", PVal.b newE) ∈
        buildPipelineUpdates curP newP curE newE curR newR ↔ newE ≠ curE) ∧
    (("rejection_status", PVal.s newR) ∈
        buildPipelineUpdates curP newP curE newE curR newR ↔ newR ≠ curR) ∧
    (∀ kv ∈ buildPipelineUpdates curP newP curE newE curR newR,
      kv = ("pipeline_status", PVal.s newP) ∨ kv = ("error_status", PVal.b newE) ∨
        kv = ("rejection_status", PVal.s newR)) := by
  by_cases h1 : newP = curP <;> by_cases h2 : newE = curE <;> by_cases h3 : newR = curR <;>
    simp [mediaSubmitAction, mediaPipelineSubmitAction, buildPipelineUpdates,
      h1, h2, h3]

/-- Witness for C9: no-change inputs produce no request; a lone pipeline
change produces the payload `{hash, pipeline_status}`. -/
theorem pipeline_submit_spec_witness :
    mediaSubmitAction "h" "ingested" "ingested" false false "unfiltered" "unfiltered" =
      (none, ["No changes detected"]) ∧
    mediaSubmitAction "h" "ingested" "downloaded" false false "unfiltered" "unfiltered" =
      (some [("hash", PVal.s "h"), ("pipeline_status", PVal.s "downloaded")], []) := by
  constructor
  · exact (pipeline_submit_spec "h" "ingested" "ingested" false false
      "unfiltered" "unfiltered").2.1 ⟨rfl, rfl, rfl⟩
  · have h := (pipeline_submit_spec "h" "ingested" "downloaded" false false
      "unfiltered" "unfiltered").2.2.1 (by decide)
    rw [h]
    rfl

theorem mem_dedupeByHashAux :
    ∀ (l : List (List (String × String))) (seen : List (Option String))
      (it : List (String × String)),
      it ∈ dedupeByHashAux l seen ↔
        ∃ pre post, l = pre ++ it :: post ∧ mhash it ∉ seen ∧
          mhash it ∉ pre.map mhash := by
  intro l
  induction l with
  | nil =>
    intro seen it
    simp only [dedupeByHashAux, List.not_mem_nil, false_iff]
    rintro ⟨pre, post, h, -, -⟩
    cases pre <;> simp at h
  | cons x tl ih =>
    intro seen it
    simp only [dedupeByHashAux]
    by_cases hx : mhash x ∈ seen
    · rw [if_pos hx, ih]
      constructor
      · rintro ⟨pre, post, rfl, hs, hp⟩
        refine ⟨x :: pre, post, rfl, hs, ?_⟩
        simp only [List.map_cons, List.mem_cons]
        rintro (heq | hmem)
        · exact hs (heq ▸ hx)
        · exact hp hmem
      · rintro ⟨pre, post, hl, hs, hp⟩
        cases pre with
        | nil =>
          simp only [List.nil_append, List.cons.injEq] at hl
          obtain ⟨rfl, rfl⟩ := hl
          exact absurd hx hs
        | cons y pre' =>
          simp only [List.cons_append, List.cons.injEq] at hl
          obtain ⟨rfl, hl'⟩ := hl
          refine ⟨pre', post, hl', hs, fun hm => hp ?_⟩
          simp [hm]
    · rw [if_neg hx]
      simp only [List.mem_cons]
      rw [ih]
      constructor
      · rintro (rfl | ⟨pre, post, rfl, hs, hp⟩)
        · exact ⟨[], tl, rfl, hx, by simp⟩
        · refine ⟨x :: pre, post, rfl, fun hc => hs (List.mem_cons_of_mem _ hc), ?_⟩
          simp only [List.map_cons, List.mem_cons]
          rintro (heq | hm)
          · exact hs (by simp [heq])
          · exact hp hm
      · rintro ⟨pre, post, hl, hs, hp⟩
        cases pre with
        | nil =>
          simp only [List.nil_append, List.cons.injEq] at hl
          obtain ⟨rfl, rfl⟩ := hl
          exact Or.inl rfl
        | cons y pre' =>
          simp only [List.cons_append, List.cons.injEq] at hl
          obtain ⟨rfl, hl'⟩ := hl
          refine Or.inr ⟨pre', post, hl', ?_, fun hm => hp (by simp [hm])⟩
          simp only [List.mem_cons]
          rintro (heq | hm)
          · exact hp (by simp [heq])
          · exact hs hm

theorem nodup_map_mhash_dedupe :
    ∀ (l : List (List (String × String))) (seen : List (Option String)),
      ((dedupeByHashAux l seen).map mhash).Nodup ∧
        ∀ h ∈ (dedupeByHashAux l seen).map mhash, h ∉ seen := by
  intro l
  induction l with
  | nil => intro seen; simp [dedupeByHashAux]
  | cons x tl ih =>
    intro seen
    simp only [dedupeByHashAux]
    by_cases hx : mhash x ∈ seen
    · rw [if_pos hx]
      exact ih seen
    · rw [if_neg hx]
      obtain ⟨hnd, hdisj⟩ := ih (mhash x :: seen)
      constructor
      · simp only [List.map_cons, List.nodup_cons]
        exact ⟨fun hc => (hdisj _ hc) (List.mem_cons_self _ _), hnd⟩
      · intro h hm
        simp only [List.map_cons, List.mem_cons] at hm
        rcases hm with rfl | hm
        · exact hx
        · exact fun hc => (hdisj _ hm) (List.mem_cons_of_mem _ hc)

theorem mhash_mem_dedupe :
    ∀ (l : List (List (String × String))) (seen : List (Option String))
      (it : List (String × String)),
      it ∈ l → mhash it ∉ seen →
        mhash it ∈ (dedupeByHashAux l seen).map mhash := by
  intro l
  induction l with
  | nil =>
    intro seen it h
    exact absurd h (List.not_mem_nil it)
  | cons x tl ih =>
    intro seen it hit hs
    simp only [dedupeByHashAux]
    by_cases hx : mhash x ∈ seen
    · rw [if_pos hx]
      rcases List.mem_cons.mp hit with rfl | h'
      · exact absurd hx hs
      · exact ih seen it h' hs
    · rw [if_neg hx]
      simp only [List.map_cons, List.mem_cons]
      rcases List.mem_cons.mp hit with rfl | h'
      · exact Or.inl rfl
      · by_cases he : mhash it = mhash x
        · exact Or.inl he
        · refine Or.inr (ih _ it h' ?_)
          simp only [List.mem_cons]
          rintro (hc | hc)
          · exact he hc
          · exact hs hc

/-- **C10.** `fetch_media_data` with more than one pipeline status issues
one GET per status (in order, each with the base parameters plus that
status), and the merged result keeps only the first item seen for each
hash, is ordered by `updated_at` descending, and has at most `limit`
items. -/
theorem fetch_media_multi_spec (cfg : ConfigData)
    (responses : String → List (List (String × String)))
    (statuses : List String) (limit offset : ℕ)
    (hlen : 1 < statuses.length) :
    (fetchMediaDataMulti cfg responses statuses limit offset).1 =
      mediaMultiRequests cfg limit offset statuses ∧
    (fetchMediaDataMulti cfg responses statuses limit offset).1.length =
      statuses.length ∧
    (fetchMediaDataMulti cfg responses statuses limit offset).2.length ≤ limit ∧
    List.Pairwise (fun a b => mupdatedAt b ≤ mupdatedAt a)
      (fetchMediaDataMulti cfg responses statuses limit offset).2 ∧
    ((fetchMediaDataMulti cfg responses statuses limit offset).2.map mhash).Nodup ∧
    (∀ it ∈ (fetchMediaDataMulti cfg responses statuses limit offset).2,
      ∃ pre post, statuses.flatMap responses = pre ++ it :: post ∧
        mhash it ∉ pre.map mhash) ∧
    (∀ it ∈ statuses.flatMap responses,
      mhash it ∈ (dedupeByHashAux (statuses.flatMap responses) []).map mhash) := by
  haveI hT : IsTotal (List (String × String))
      (fun a b => mupdatedAt b ≤ mupdatedAt a) :=
    ⟨fun a b => (le_total (mupdatedAt b) (mupdatedAt a))⟩
  haveI hTr : IsTrans (List (String × String))
      (fun a b => mupdatedAt b ≤ mupdatedAt a) :=
    ⟨fun _ _ _ hab hbc => le_trans hbc hab⟩
  have hsorted : List.Pairwise (fun a b => mupdatedAt b ≤ mupdatedAt a)
      (sortByUpdatedDesc (dedupeByHashAux (statuses.flatMap responses) [])) :=
    List.sorted_insertionSort _ _
  have hperm := List.perm_insertionSort (fun a b => mupdatedAt b ≤ mupdatedAt a)
    (dedupeByHashAux (statuses.flatMap responses) [])
  have htake : (fetchMediaDataMulti cfg responses statuses limit offset).2.Sublist
      (sortByUpdatedDesc (dedupeByHashAux (statuses.flatMap responses) [])) :=
    List.take_sublist _ _
  refine ⟨rfl, ?_, ?_, ?_, ?_, ?_, ?_⟩
  · simp [fetchMediaDataMulti, mediaMultiRequests]
  · simp only [fetchMediaDataMulti]
    rw [List.length_take]
    exact min_le_left _ _
  · exact hsorted.sublist htake
  · have hnd : ((dedupeByHashAux (statuses.flatMap responses) []).map mhash).Nodup :=
      (nodup_map_mhash_dedupe (statuses.flatMap responses) []).1
    have hnd' : ((sortByUpdatedDesc
        (dedupeByHashAux (statuses.flatMap responses) [])).map mhash).Nodup :=
      ((hperm.map mhash).nodup_iff).mpr hnd
    exact hnd'.sublist (htake.map mhash)
  · intro it hit
    have hmem : it ∈ dedupeByHashAux (statuses.flatMap responses) [] :=
      hperm.mem_iff.mp (htake.mem hit)
    obtain ⟨pre, post, hdec, -, hp⟩ :=
      (mem_dedupeByHashAux (statuses.flatMap responses) [] it).mp hmem
    exact ⟨pre, post, hdec, hp⟩
  · intro it hit
    exact mhash_mem_dedupe (statuses.flatMap responses) [] it hit
      (List.not_mem_nil _)

/-- Witness for C10 at two statuses with an overlapping hash. -/
theorem fetch_media_multi_spec_witness :
    ((fetchMediaDataMulti cfg0 responses0 ["downloaded", "downloading"] 2 0).2.map
      mhash).Nodup ∧
    (fetchMediaDataMulti cfg0 responses0 ["downloaded", "downloading"] 2 0).2.length
      ≤ 2 := by
  have h := fetch_media_multi_spec cfg0 responses0 ["downloaded", "downloading"] 2 0
    (by decide)
  exact ⟨h.2.2.2.2.1, h.2.2.1⟩

/-- **C7.** The two routines the spec singles out are pure and
deterministic: in state-passing form, `style_dot` (with all its helpers)
and `get_geometric_midpoint_radius` return values that do not depend on
the ambient session state and leave that state unchanged; equal inputs give
equal outputs. -/
theorem pure_routines_deterministic :
    (∀ (w w' : SessionState) (s : String),
      (styleDotRun w s).2 = (styleDotRun w' s).2 ∧ (styleDotRun w s).1 = w) ∧
    (∀ (w w' : SessionState) (r1 θ1 r2 θ2 θmid : ℝ),
      (getGeometricMidpointRadiusRun w r1 θ1 r2 θ2 θmid).2 =
        (getGeometricMidpointRadiusRun w' r1 θ1 r2 θ2 θmid).2 ∧
      (getGeometricMidpointRadiusRun w r1 θ1 r2 θ2 θmid).1 = w) :=
  ⟨fun _ _ _ => ⟨rfl, rfl⟩, fun _ _ _ _ _ _ _ => ⟨rfl, rfl⟩⟩

/-- **C8.** `create_radar_chart` leaves the item unchanged: the dict state
threaded through every `item.get` read is returned exactly as passed, so
after the call the item holds the same keys and values as before. -/
theorem create_radar_chart_frame (item : List (String × JValue)) :
    (createRadarChart item).2 = item :=
  rfl

end CenterConsole
